import Mathlib

/-!
Verification development for the `SnuggeryArchitectHost` plugin-resolution core
(`src/unnamed/part_000`, with the facade variant in
`src/packages/snuggery/src/cli/architect/host.ts`).

The embedding models the JavaScript runtime values the host manipulates
(`JsValue`), Node's path helpers as used on the well-formed absolute paths the
host produces (no `.`/`..` normalisation, which the claims never exercise),
and the host's operations as pure functions over an explicit environment
(`HostEnv`) standing for the module loader (`require.resolve`, `require`,
dynamic `import(...)`) and the workspace.  Exceptions become the `Outcome.err`
constructor; the unbounded manifest-indirection `while` loop is given explicit
fuel, with `Outcome.diverge` marking fuel exhaustion; a JavaScript `TypeError`
(property access on `null`/`undefined`) is `Outcome.crash`.
-/

namespace Snuggery

/-- A JavaScript value as far as the host observes it: JSON-like data plus the
`undefined` value, functions, and the `BuilderSymbol` capability tag carried by
objects and functions (`builderSym`).  JSON numbers are modelled as integers;
no claim exercises fractional values. -/
inductive JsValue where
  | null
  | undefined
  | bool (b : Bool)
  | num (n : Int)
  | str (s : String)
  | arr (elems : List JsValue)
  | obj (fields : List (String × JsValue)) (builderSym : Bool)
  | func (id : Nat) (builderSym : Bool)

/-- Look a key up in an object's field list (first occurrence, as a JavaScript
object has at most one own property per key). -/
def jsLookup (fields : List (String × JsValue)) (key : String) : Option JsValue :=
  (fields.find? (fun kv => kv.1 == key)).map (fun kv => kv.2)

/-- JavaScript `v == null`: true exactly for `null` and `undefined`. -/
def jsIsNullish : JsValue → Bool
  | .null => true
  | .undefined => true
  | _ => false

/-- `isJsonObject` from `@angular-devkit/core`: a non-null, non-array object. -/
def isJsonObject : JsValue → Bool
  | .obj _ _ => true
  | _ => false

/-- JavaScript `typeof v === 'object'`: true for `null`, arrays and objects. -/
def typeofObject : JsValue → Bool
  | .null => true
  | .arr _ => true
  | .obj _ _ => true
  | _ => false

/-- Property access `v[key]`.  `none` is the `TypeError` thrown when reading a
property of `null`/`undefined`; a missing property reads as `undefined`;
properties of primitives, arrays and functions are not modelled and read as
`undefined` (the host only reads named properties off objects). -/
def jsGetProp : JsValue → String → Option JsValue
  | .null, _ => none
  | .undefined, _ => none
  | .obj fields _, key => some ((jsLookup fields key).getD .undefined)
  | _, _ => some .undefined

/-- Truthiness of `value[BuilderSymbol]`, the capability tag set by the native
builder-construction primitive (`isBuilder` in the source). -/
def jsBuilderTag : JsValue → Bool
  | .obj _ t => t
  | .func _ t => t
  | _ => false

/-- Write one key into a field list the way JavaScript assignment does: an
existing key keeps its position and is overwritten, a new key is appended. -/
def setKey (fields : List (String × JsValue)) (key : String) (value : JsValue) :
    List (String × JsValue) :=
  if fields.any (fun kv => kv.1 == key) then
    fields.map (fun kv => if kv.1 == key then (key, value) else kv)
  else
    fields ++ [(key, value)]

/-- `Object.assign(target, source)` restricted to an object source: copy the
source's fields, in order, into the target. -/
def jsAssignFields (target source : List (String × JsValue)) : List (String × JsValue) :=
  source.foldl (fun acc kv => setKey acc kv.1 kv.2) target

/-- `Object.assign(target, v)`.  Non-object sources (the host only ever passes
objects) contribute no fields. -/
def jsAssign (target : List (String × JsValue)) : JsValue → List (String × JsValue)
  | .obj fields _ => jsAssignFields target fields
  | _ => target

/-! ## Strings and paths -/

/-- JavaScript `string.split(sep)` for a single-character separator, on the
character list of the string. -/
def splitOnChar (c : Char) : List Char → List (List Char)
  | [] => [[]]
  | x :: xs =>
    if x = c then [] :: splitOnChar c xs
    else
      match splitOnChar c xs with
      | [] => [[x]]
      | y :: ys => (x :: y) :: ys

/-- Split a character list as `dir ++ '/' :: base` at the last `'/'`, if any. -/
def lastSplitSlash (l : List Char) : Option (List Char × List Char) :=
  match l.reverse.span (fun c => c != '/') with
  | (_, []) => none
  | (revBase, _ :: revDir) => some (revDir.reverse, revBase.reverse)

/-- Node's `path.dirname` on the slash-containing, non-slash-terminated paths
the host works with. -/
def dirname (p : String) : String :=
  match lastSplitSlash p.data with
  | none => "."
  | some ([], _) => "/"
  | some (d, _) => String.mk d

/-- Node's `path.basename` on the same class of paths. -/
def basename (p : String) : String :=
  match lastSplitSlash p.data with
  | none => p
  | some (_, b) => String.mk b

/-- Node's `path.join` restricted to the host's use (a directory joined with a
relative fragment); `.`/`..` normalisation is not modelled, the host never
produces segments that need it on the claimed behaviours. -/
def pathJoin (a b : String) : String :=
  if a.data.isEmpty then b
  else if a.data.getLast? = some '/' then String.mk (a.data ++ b.data)
  else String.mk (a.data ++ '/' :: b.data)

/-- A path of the shape every resolved module file path has: it contains a
`'/'`, its final segment is non-empty, and the directory part does not itself
end in `'/'` (unless it is the root).  On such paths
`pathJoin (dirname p) (basename p) = p`. -/
def goodPath (p : String) : Bool :=
  match lastSplitSlash p.data with
  | none => false
  | some (d, b) => !b.isEmpty && (d.isEmpty || !(d.getLast? = some '/'))

/-! ## Errors, outcomes and the data model -/

/-- The error classes thrown by the host, each carrying its message. -/
inductive HostError where
  | unknownBuilder (message : String)
  | unknownConfiguration (message : String)
  | invalidBuilderSpecified (message : String)
  | invalidBuilder (message : String)
  | unknownTarget (message : String)
deriving DecidableEq

/-- Result of running a host operation: a value, a thrown `HostError`, fuel
exhaustion of the unguarded manifest-indirection loop (`diverge`), or an
unhandled JavaScript `TypeError` (`crash`). -/
inductive Outcome (α : Type) where
  | ok (a : α)
  | err (e : HostError)
  | diverge
  | crash

/-- The `SnuggeryBuilderInfo` descriptor produced by `resolveBuilder`. -/
structure SnuggeryBuilderInfo where
  packageName : Option String
  builderName : String
  description : Option String
  optionSchema : JsValue
  implementationPath : String
  implementationExport : Option String
  isNx : Option Bool

/-- What `loadBuilder` hands back on success: the loaded implementation value,
either as-is (`native`) or wrapped through `makeExecutorIntoBuilder`, the
alternate-convention adapter (`adapted`), which is external to this core. -/
inductive LoadedBuilder where
  | native (impl : JsValue)
  | adapted (impl : JsValue)

/-- A target definition from the workspace (only the fields the host reads). -/
structure TargetDefinition where
  builder : String
  options : Option (List (String × JsValue))
  configurations : Option (List (String × JsValue))

/-- A project definition (metadata-only fields are omitted; no claim reads
them). -/
structure ProjectDefinition where
  root : String
  targets : List (String × TargetDefinition)

/-- The `CliWorkspace` as the host consumes it. -/
structure Workspace where
  basePath : String
  projects : List (String × ProjectDefinition)

/-- A target reference: project, target name, and the optional comma-separated
configuration list. -/
structure Target where
  project : String
  target : String
  configuration : Option String

/-- The host's environment: the start directory and optional workspace from its
constructor, plus the ambient module loader.  `resolvePackageJson base pkg`
models `require.resolve(join(pkg, 'package.json'))` from `base`,
`resolveModule` models `require.resolve(request)` from `base`, `readJson`
models a `require(path)` of a JSON document (`none` = it threw), and
`importModule` models dynamic `import(path)` yielding the module namespace
object (`none` = it threw). -/
structure HostEnv where
  startCwd : String
  workspace : Option Workspace
  resolvePackageJson : String → String → Option String
  resolveModule : String → String → Option String
  readJson : String → Option JsValue
  importModule : String → Option JsValue

/-! ## Candidate base directories -/

/-- The ordered, de-duplicated candidate base directories:
`new Set(workspace != null ? [startCwd, workspace.basePath] : [startCwd])`. -/
def basePaths (env : HostEnv) : List String :=
  match env.workspace with
  | some w => if w.basePath = env.startCwd then [env.startCwd] else [env.startCwd, w.basePath]
  | none => [env.startCwd]

/-- Per-base-directory start of `loadBuilderJson`: try the package's
`package.json` entry point, fall back to resolving the bare specifier. -/
def resolveStart (env : HostEnv) (base packageName : String) : Option String :=
  match env.resolvePackageJson base packageName with
  | some p => some p
  | none => env.resolveModule base packageName

/-! ## ManifestLoader (`loadBuilderJson`) -/

/-- The `while (typeof buildersJson.builders === 'string')` indirection loop of
`loadBuilderJson`: follow the string-valued `builders` pointer, resolved
against the current document's directory, until it is not a string.  The
source has no depth guard, hence the fuel. -/
def followBuilders (env : HostEnv) : Nat → String → JsValue → Outcome (String × JsValue)
  | 0, _, _ => .diverge
  | fuel + 1, buildersJsonPath, buildersJson =>
    match jsGetProp buildersJson "builders" with
    | none => .crash
    | some (.str next) =>
      let nextPath := pathJoin (dirname buildersJsonPath) next
      match env.readJson nextPath with
      | none => .err (.invalidBuilder s!"Failed to load builder configuration file \"{nextPath}\"")
      | some nextJson => followBuilders env fuel nextPath nextJson
    | some _ => .ok (buildersJsonPath, buildersJson)

/-- The body of `loadBuilderJson` once a start document path has been resolved:
load it, follow the indirection chain, then demand an object-valued `builders`
map and capture an object-valued `executors` map of the final document. -/
def loadManifestAt (env : HostEnv) (fuel : Nat) (packageName builderSpec startJsonPath : String) :
    Outcome (String × List (String × JsValue) × Option (List (String × JsValue))) :=
  match env.readJson startJsonPath with
  | none => .err (.invalidBuilder s!"Failed to load builder configuration file \"{startJsonPath}\"")
  | some startJson =>
    match followBuilders env fuel startJsonPath startJson with
    | .ok (buildersJsonPath, buildersJson) =>
      match jsGetProp buildersJson "builders" with
      | none => .crash
      | some buildersField =>
        if jsIsNullish buildersField then
          .err (.invalidBuilder s!"No builder configuration found in \"{packageName}\" for builder \"{builderSpec}\"")
        else
          match buildersField with
          | .obj builders _ =>
            let executors := match jsGetProp buildersJson "executors" with
              | some (.obj es _) => some es
              | _ => none
            .ok (buildersJsonPath, builders, executors)
          | _ => .err (.invalidBuilder s!"Builder configuration file \"{buildersJsonPath}\" for \"{builderSpec}\" doesn't match the schema")
    | .err e => .err e
    | .diverge => .diverge
    | .crash => .crash

/-- The candidate-directory loop of `loadBuilderJson`: the first base directory
where the package resolves is used; resolution failure falls through to the
next candidate, every other failure is terminal. -/
def loadBuilderJsonAux (env : HostEnv) (fuel : Nat) (packageName builderSpec : String) :
    List String → Outcome (String × List (String × JsValue) × Option (List (String × JsValue)))
  | [] => .err (.unknownBuilder s!"Couldn't find builder configuration in \"{packageName}\" for builder \"{builderSpec}\"")
  | basePath :: rest =>
    match resolveStart env basePath packageName with
    | none => loadBuilderJsonAux env fuel packageName builderSpec rest
    | some startJsonPath => loadManifestAt env fuel packageName builderSpec startJsonPath

/-- `SnuggeryArchitectHost.loadBuilderJson`. -/
def loadBuilderJson (env : HostEnv) (fuel : Nat) (packageName builderSpec : String) :
    Outcome (String × List (String × JsValue) × Option (List (String × JsValue))) :=
  loadBuilderJsonAux env fuel packageName builderSpec (basePaths env)

/-- The start document path `loadBuilderJson` actually loads from: the first
candidate base directory that resolves the package. -/
def firstStartAux (env : HostEnv) (packageName : String) : List String → Option String
  | [] => none
  | basePath :: rest =>
    match resolveStart env basePath packageName with
    | some p => some p
    | none => firstStartAux env packageName rest

/-- `firstStartAux` over the host's candidate directories. -/
def firstStart (env : HostEnv) (packageName : String) : Option String :=
  firstStartAux env packageName (basePaths env)

/-! ## Direct resolution (`resolveBuilderFromPath`) -/

/-- `.then(module => module.default ?? module)`: the default export if it is
neither `null` nor `undefined`, else the namespace object itself.  A module
namespace is always an object, so the property read cannot throw. -/
def defaultExport (m : JsValue) : JsValue :=
  match jsGetProp m "default" with
  | some d => if jsIsNullish d then m else d
  | none => m

/-- The body of `resolveBuilderFromPath` once the module path has resolved:
evaluate the module, take `module.default ?? module`, and accept a
builder-tagged value, a `{type, implementation}` value, or the value itself
as a builder entry. -/
def directLoadAt (env : HostEnv) (path resolvedPath : String) : Outcome (String × JsValue) :=
  match env.importModule resolvedPath with
  | none => .err (.invalidBuilder s!"Failed to load builder file \"{resolvedPath}\" for builder \"{path}\"")
  | some m =>
    match defaultExport m with
    | .obj fields tag =>
      if tag then
        .ok (resolvedPath,
          .obj [("schema", .bool true), ("implementation", .str (basename resolvedPath))] false)
      else
        match jsLookup fields "type", jsLookup fields "implementation" with
        | some (.str _), some (.str impl) =>
          .ok (resolvedPath,
            .obj [("schema", .str (basename resolvedPath)), ("implementation", .str impl)] false)
        | _, _ => .ok (resolvedPath, .obj fields tag)
    | _ => .err (.invalidBuilder s!"File \"{resolvedPath}\" for builder \"{path}\" does not contain a valid builder")

/-- The candidate-directory loop of `resolveBuilderFromPath`: the first base
directory where the module path resolves is used; resolution failure falls
through to the next candidate, every other failure is terminal. -/
def resolveBuilderFromPathAux (env : HostEnv) (path : String) :
    List String → Outcome (String × JsValue)
  | [] => .err (.unknownBuilder s!"Can't resolve builder \"{path}\"")
  | basePath :: rest =>
    match env.resolveModule basePath path with
    | none => resolveBuilderFromPathAux env path rest
    | some resolvedPath => directLoadAt env path resolvedPath

/-- `SnuggeryArchitectHost.resolveBuilderFromPath`. -/
def resolveBuilderFromPath (env : HostEnv) (path : String) : Outcome (String × JsValue) :=
  resolveBuilderFromPathAux env path (basePaths env)

/-- The resolved module path `resolveBuilderFromPath` actually loads: the first
candidate base directory that resolves the request. -/
def firstModuleAux (env : HostEnv) (path : String) : List String → Option String
  | [] => none
  | basePath :: rest =>
    match env.resolveModule basePath path with
    | some p => some p
    | none => firstModuleAux env path rest

/-- `firstModuleAux` over the host's candidate directories. -/
def firstModule (env : HostEnv) (path : String) : Option String :=
  firstModuleAux env path (basePaths env)

/-! ## BuilderResolver (`resolveBuilder`) -/

/-- JavaScript `builderSpec.split(':', 2)` destructured as
`[packageName, builderName]`: the limit truncates the array, so the second
component is the text between the first and second `':'`. -/
def parseBuilderSpec (builderSpec : String) : String × Option String :=
  match splitOnChar ':' builderSpec.data with
  | [] => (builderSpec, none)
  | [only] => (String.mk only, none)
  | first :: second :: _ => (String.mk first, some (String.mk second))

/-- The `InvalidBuilderSpecifiedError` message for a separator-less specifier. -/
def invalidSpecMsg : String :=
  "Builders must list a collection, use $direct as collection if you want to use a builder directly"

/-- The `InvalidBuilderError` message for a structurally invalid entry. -/
def invalidConfigurationMsg (packageName builderName : String) : String :=
  if packageName ≠ "$direct" then
    s!"Invalid configuration for builder \"{builderName}\" in package \"{packageName}\""
  else
    s!"Invalid configuration for builder \"{builderName}\""

/-- `implementationPath.includes('#')` / `indexOf('#')` / the two `slice`s:
split the implementation reference at the first `'#'` into module path and
export name (the export name keeps any further `'#'`). -/
def splitImplementation (implementation : String) : String × Option String :=
  match implementation.data.span (fun c => c != '#') with
  | (_, []) => (implementation, none)
  | (before, _ :: after) => (String.mk before, some (String.mk after))

/-- Lines 362-385 of the source: assemble the descriptor from a validated
entry and a resolved schema. -/
def finishDescriptor (packageName builderName builderPath : String)
    (fields : List (String × JsValue)) (implementationRaw : String)
    (optionSchema : JsValue) (isNx : Option Bool) : SnuggeryBuilderInfo :=
  let description := match jsLookup fields "description" with
    | some (.str d) => some d
    | _ => none
  let pe := splitImplementation implementationRaw
  { packageName := some packageName,
    builderName := builderName,
    description := description,
    optionSchema := optionSchema,
    implementationPath := pathJoin (dirname builderPath) pe.1,
    implementationExport := pe.2,
    isNx := isNx }

/-- Lines 329-386 of the source: validate the selected entry (`implementation`
a string, `schema` a string or boolean), resolve a string schema relative to
the manifest's directory via `require`, and build the descriptor. -/
def buildDescriptor (env : HostEnv) (packageName builderName builderPath : String)
    (builderInfo : JsValue) (isNx : Option Bool) : Outcome SnuggeryBuilderInfo :=
  match builderInfo with
  | .obj fields _ =>
    match jsLookup fields "implementation", jsLookup fields "schema" with
    | some (.str implementationRaw), some (.bool b) =>
      .ok (finishDescriptor packageName builderName builderPath fields implementationRaw (.bool b) isNx)
    | some (.str implementationRaw), some (.str schemaRel) =>
      let schemaPath := pathJoin (dirname builderPath) schemaRel
      match env.readJson schemaPath with
      | none => .err (.invalidBuilder s!"Couldn't load schema \"{schemaPath}\" for builder \"{builderName}\" in package \"{packageName}\"")
      | some optionSchema =>
        match optionSchema with
        | .obj os t => .ok (finishDescriptor packageName builderName builderPath fields implementationRaw (.obj os t) isNx)
        | _ => .err (.invalidBuilder s!"Invalid schema at \"{schemaPath}\" for builder \"{builderName}\" in package \"{packageName}\"")
    | _, _ => .err (.invalidBuilder (invalidConfigurationMsg packageName builderName))
  | _ => .err (.invalidBuilder (invalidConfigurationMsg packageName builderName))

/-- `resolveBuilder` after the specifier has been parsed: the `$direct` bypass,
or manifest lookup with the alternate (`executors`) map taking precedence and
`isNx` set to `true` there, `false` on a native hit when an alternate map
exists at all, `null` otherwise. -/
def resolveBuilderParsed (env : HostEnv) (fuel : Nat)
    (builderSpec packageName builderName : String) : Outcome SnuggeryBuilderInfo :=
  if packageName = "$direct" then
    match resolveBuilderFromPath env builderName with
    | .ok (builderPath, builderInfo) =>
      buildDescriptor env packageName builderName builderPath builderInfo none
    | .err e => .err e
    | .diverge => .diverge
    | .crash => .crash
  else
    match loadBuilderJson env fuel packageName builderSpec with
    | .ok (builderPath, builderJson, executorsJson) =>
      match executorsJson with
      | some executors =>
        match jsLookup executors builderName with
        | some builderInfo =>
          buildDescriptor env packageName builderName builderPath builderInfo (some true)
        | none =>
          match jsLookup builderJson builderName with
          | some builderInfo =>
            buildDescriptor env packageName builderName builderPath builderInfo (some false)
          | none => .err (.unknownBuilder s!"Can't find \"{builderName}\" in \"{packageName}\"")
      | none =>
        match jsLookup builderJson builderName with
        | some builderInfo =>
          buildDescriptor env packageName builderName builderPath builderInfo none
        | none => .err (.unknownBuilder s!"Can't find \"{builderName}\" in \"{packageName}\"")
    | .err e => .err e
    | .diverge => .diverge
    | .crash => .crash

/-- `SnuggeryArchitectHost.resolveBuilder`. -/
def resolveBuilder (env : HostEnv) (fuel : Nat) (builderSpec : String) :
    Outcome SnuggeryBuilderInfo :=
  match parseBuilderSpec builderSpec with
  | (_, none) => .err (.invalidBuilderSpecified invalidSpecMsg)
  | (packageName, some builderName) =>
    resolveBuilderParsed env fuel builderSpec packageName builderName

/-! ## ImplementationLoader (`loadBuilder`) -/

/-- A JavaScript template literal prints `null` for a null value. -/
def showNullable : Option String → String
  | some s => s
  | none => "null"

/-- `v === 'nx'` against the schema's `cli` marker. -/
def isStrNx : JsValue → Bool
  | .str s => s == "nx"
  | _ => false

/-- Lines 406-427 of the source, the part of `loadBuilder` after the
implementation value has been selected from the module: the `== null` guard,
the adapter decision (`info.isNx || (info.isNx !== false && typeof
info.optionSchema === 'object' && info.optionSchema.cli === 'nx')`, where the
property read crashes on a `null` schema), and the `BuilderSymbol` check. -/
def loadBuilderWith (info : SnuggeryBuilderInfo) (implementation : JsValue) :
    Outcome LoadedBuilder :=
  let builderName := info.builderName
  let pkg := showNullable info.packageName
  if jsIsNullish implementation then
    .err (.invalidBuilder s!"Failed to load implementation for builder \"{builderName}\" in package {pkg}")
  else if info.isNx = some true then
    .ok (.adapted implementation)
  else if info.isNx ≠ some false ∧ typeofObject info.optionSchema = true then
    match jsGetProp info.optionSchema "cli" with
    | none => .crash
    | some cli =>
      if isStrNx cli then .ok (.adapted implementation)
      else if jsBuilderTag implementation then .ok (.native implementation)
      else .err (.invalidBuilder s!"Implementation for builder \"{builderName}\" in package \"{pkg}\" is not a builder")
  else if jsBuilderTag implementation then .ok (.native implementation)
  else .err (.invalidBuilder s!"Implementation for builder \"{builderName}\" in package \"{pkg}\" is not a builder")

/-- `SnuggeryArchitectHost.loadBuilder`.  The import-failure message of the
source additionally embeds the underlying exception's text, which is outside
the model. -/
def loadBuilder (env : HostEnv) (info : SnuggeryBuilderInfo) : Outcome LoadedBuilder :=
  let builderName := info.builderName
  let pkg := showNullable info.packageName
  match env.importModule info.implementationPath with
  | none =>
    .err (.invalidBuilder s!"Failed to load implementation for builder \"{builderName}\" in package \"{pkg}\"")
  | some m =>
    loadBuilderWith info
      (match info.implementationExport with
        | some exportName => (jsGetProp m exportName).getD .undefined
        | none => defaultExport m)

/-! ## Target and options resolution -/

/-- `SnuggeryArchitectHost.getProject`. -/
def getProject (env : HostEnv) (projectName : String) : Outcome ProjectDefinition :=
  match env.workspace with
  | none => .err (.unknownTarget s!"Unknown project: \"{projectName}\"")
  | some w =>
    match (w.projects.find? (fun kv => kv.1 == projectName)).map (fun kv => kv.2) with
    | none => .err (.unknownTarget s!"Unknown project: \"{projectName}\"")
    | some project => .ok project

/-- `SnuggeryArchitectHost.getTarget`. -/
def getTarget (env : HostEnv) (target : Target) : Outcome TargetDefinition :=
  let targetName := target.target
  let projectName := target.project
  match getProject env projectName with
  | .ok project =>
    match (project.targets.find? (fun kv => kv.1 == targetName)).map (fun kv => kv.2) with
    | none => .err (.unknownTarget s!"No target named \"{targetName}\" found in project \"{projectName}\"")
    | some td => .ok td
  | .err e => .err e
  | .diverge => .diverge
  | .crash => .crash

/-- `target.configuration?.split(',') || []`. -/
def configNames : Option String → List String
  | none => []
  | some c => (splitOnChar ',' c.data).map (fun l => String.mk l)

/-- `targetDefinition.configurations?.[name]`. -/
def lookupConfiguration (td : TargetDefinition) (name : String) : Option JsValue :=
  match td.configurations with
  | some cs => jsLookup cs name
  | none => none

/-- The `UnknownConfigurationError` message. -/
def unknownConfigMsg (targetName projectName configurationName : String) : String :=
  s!"Target \"{targetName}\" in project \"{projectName}\" doesn't have a configuration named \"{configurationName}\""

/-- Whether a configuration name would be accepted by the loop of
`getOptionsForTarget`: present in the `configurations` map with a value that
is not `null`/`undefined`. -/
def hasConfiguration (td : TargetDefinition) (name : String) : Bool :=
  match lookupConfiguration td name with
  | some v => !jsIsNullish v
  | none => false

/-- One iteration of the configuration loop of `getOptionsForTarget`: a
missing or nullish configuration throws, otherwise its options are
`Object.assign`ed over the accumulator. -/
def applyConfiguration (td : TargetDefinition) (projectName targetName : String)
    (acc : Outcome (List (String × JsValue))) (name : String) :
    Outcome (List (String × JsValue)) :=
  match acc with
  | .ok opts =>
    match lookupConfiguration td name with
    | some v =>
      if jsIsNullish v then .err (.unknownConfiguration (unknownConfigMsg targetName projectName name))
      else .ok (jsAssign opts v)
    | none => .err (.unknownConfiguration (unknownConfigMsg targetName projectName name))
  | e => e

/-- `SnuggeryArchitectHost.getOptionsForTarget`. -/
def getOptionsForTarget (env : HostEnv) (target : Target) : Outcome JsValue :=
  match getTarget env target with
  | .ok td =>
    let base := match td.options with
      | some fs => jsAssignFields [] fs
      | none => []
    match (configNames target.configuration).foldl
        (applyConfiguration td target.project target.target) (.ok base) with
    | .ok fs => .ok (.obj fs false)
    | .err e => .err e
    | .diverge => .diverge
    | .crash => .crash
  | .err e => .err e
  | .diverge => .diverge
  | .crash => .crash

/-! ## Claim-level predicates -/

/-- The spec's wording of the alternate-convention marker: the option schema is
an object whose `cli` field is the string `"nx"`. -/
def schemaCliNx : JsValue → Bool
  | .obj fields _ =>
    match jsLookup fields "cli" with
    | some (.str s) => s == "nx"
    | _ => false
  | _ => false

/-- Whether `loadBuilder` routed the implementation through the
alternate-convention adapter. -/
def LoadedBuilder.isAdapted : LoadedBuilder → Bool
  | .adapted _ => true
  | .native _ => false

/-! ## Concrete fixtures used by witnesses and counterexamples -/

/-- A builder-tagged value (one carrying a truthy `BuilderSymbol`). -/
def vTagged : JsValue := .obj [] true

/-- The base options `{a: 1, b: {x: 1}}` of the C4 scenario. -/
def c4Base : List (String × JsValue) := [("a", .num 1), ("b", .obj [("x", .num 1)] false)]

/-- The configurations `c1 = {b: {y: 1}}` and `c2 = {a: 2}` of the C4 scenario. -/
def c4Configs : List (String × JsValue) :=
  [("c1", .obj [("b", .obj [("y", .num 1)] false)] false),
   ("c2", .obj [("a", .num 2)] false)]

/-- The `build` target definition of the fixture workspace: base options
`c4Base` and configurations `c4Configs`. -/
def buildTargetDef : TargetDefinition :=
  { builder := "pkg:b", options := some c4Base, configurations := some c4Configs }

/-- An environment whose module loader knows a package `pkg` (whose
`package.json` points at `builders.json`, which declares the entry `b` in both
maps), a direct module `./direct.js` whose default export is builder-tagged,
and a workspace with one project `app` with one target `build`. -/
def envHappy : HostEnv :=
  { startCwd := "/ws",
    workspace := some
      { basePath := "/ws",
        projects := [("app",
          { root := "",
            targets := [("build", buildTargetDef)] })] },
    resolvePackageJson := fun _ pkg =>
      if pkg = "pkg" then some "/ws/node_modules/pkg/package.json" else none,
    resolveModule := fun _ req =>
      if req = "./direct.js" then some "/ws/direct.js" else none,
    readJson := fun path =>
      if path = "/ws/node_modules/pkg/package.json" then
        some (.obj [("builders", .str "builders.json")] false)
      else if path = "/ws/node_modules/pkg/builders.json" then
        some (.obj
          [("builders", .obj [("b", .obj [("implementation", .str "impl.js"), ("schema", .bool true)] false)] false),
           ("executors", .obj [("b", .obj [("implementation", .str "exec.js"), ("schema", .bool true)] false)] false)]
          false)
      else none,
    importModule := fun path =>
      if path = "/ws/direct.js" then some (.obj [("default", vTagged)] false) else none }

/-- A loader whose `/impl.js` module default-exports a builder-tagged value. -/
def envLoad : HostEnv :=
  { startCwd := "/ws",
    workspace := none,
    resolvePackageJson := fun _ _ => none,
    resolveModule := fun _ _ => none,
    readJson := fun _ => none,
    importModule := fun path =>
      if path = "/impl.js" then some (.obj [("default", vTagged)] false) else none }

/-- A descriptor with unknown format (`isNx = null`) whose schema carries the
`cli: "nx"` marker and whose implementation is `/impl.js`. -/
def infoCliNx : SnuggeryBuilderInfo :=
  { packageName := some "p", builderName := "b", description := none,
    optionSchema := .obj [("cli", .str "nx")] false,
    implementationPath := "/impl.js", implementationExport := none, isNx := none }

/-- The same descriptor but definitely native (`isNx = false`). -/
def infoNativeFalse : SnuggeryBuilderInfo :=
  { packageName := some "p", builderName := "b", description := none,
    optionSchema := .bool true,
    implementationPath := "/impl.js", implementationExport := none, isNx := some false }

/-- The same descriptor but definitely alternate-format (`isNx = true`). -/
def infoNxTrue : SnuggeryBuilderInfo :=
  { packageName := some "p", builderName := "b", description := none,
    optionSchema := .bool true,
    implementationPath := "/impl.js", implementationExport := none, isNx := some true }

/-- An environment whose package `p` has a manifest declaring only the entry
named `b:c` (a name containing a colon) in its native map. -/
def env5 : HostEnv :=
  { startCwd := "/ws",
    workspace := none,
    resolvePackageJson := fun _ pkg =>
      if pkg = "p" then some "/ws/node_modules/p/package.json" else none,
    resolveModule := fun _ _ => none,
    readJson := fun path =>
      if path = "/ws/node_modules/p/package.json" then
        some (.obj
          [("builders", .obj [("b:c", .obj [("implementation", .str "i.js"), ("schema", .bool true)] false)] false)]
          false)
      else none,
    importModule := fun _ => none }

/-- An environment in which nothing resolves at all. -/
def envNone : HostEnv :=
  { startCwd := "/ws",
    workspace := none,
    resolvePackageJson := fun _ _ => none,
    resolveModule := fun _ _ => none,
    readJson := fun _ => none,
    importModule := fun _ => none }

/-- An environment whose package `pkg` resolves but whose manifest document
has no `builders` field at all. -/
def envBadBuilders : HostEnv :=
  { startCwd := "/ws",
    workspace := none,
    resolvePackageJson := fun _ pkg =>
      if pkg = "pkg" then some "/ws/node_modules/pkg/package.json" else none,
    resolveModule := fun _ _ => none,
    readJson := fun path =>
      if path = "/ws/node_modules/pkg/package.json" then some (.obj [("name", .str "pkg")] false)
      else none,
    importModule := fun _ => none }

/-- The target `app:build` with configuration list `c1,c2`. -/
def c4Target : Target := { project := "app", target := "build", configuration := some "c1,c2" }

/-- The target `app:build` with configuration list `c1,nope`, where `nope` is
not a configuration of the target. -/
def c9Target : Target := { project := "app", target := "build", configuration := some "c1,nope" }


/-! ## Helper lemmas: splitting -/

theorem splitOnChar_ne_nil (c : Char) : ∀ (l : List Char), splitOnChar c l ≠ []
  | [] => by simp [splitOnChar]
  | x :: xs => by
    unfold splitOnChar
    by_cases hx : x = c
    · simp [hx]
    · simp only [if_neg hx]
      cases h : splitOnChar c xs <;> simp

theorem splitOnChar_of_not_mem {c : Char} : ∀ {l : List Char}, c ∉ l → splitOnChar c l = [l]
  | [], _ => rfl
  | x :: xs, h => by
    have hx : ¬ x = c := fun e => h (e ▸ List.mem_cons_self x xs)
    have hxs : c ∉ xs := fun m => h (List.mem_cons_of_mem _ m)
    simp [splitOnChar, hx, splitOnChar_of_not_mem hxs]

theorem splitOnChar_append (c : Char) : ∀ (p r : List Char), c ∉ p →
    splitOnChar c (p ++ c :: r) = p :: splitOnChar c r
  | [], r, _ => by simp [splitOnChar]
  | x :: p', r, h => by
    have hx : ¬ x = c := fun e => h (e ▸ List.mem_cons_self x p')
    have hp : c ∉ p' := fun m => h (List.mem_cons_of_mem _ m)
    have ih := splitOnChar_append c p' r hp
    simp only [List.cons_append, splitOnChar, if_neg hx, List.append_eq, ih]

theorem head_splitOnChar (c : Char) : ∀ (l : List Char),
    (splitOnChar c l).head? = some (l.takeWhile (fun x => x != c))
  | [] => rfl
  | x :: xs => by
    unfold splitOnChar
    by_cases hx : x = c
    · subst hx
      simp [List.takeWhile_cons]
    · cases h : splitOnChar c xs with
      | nil => exact absurd h (splitOnChar_ne_nil c xs)
      | cons y ys =>
        have ih := head_splitOnChar c xs
        rw [h] at ih
        simp only [List.head?] at ih
        have hxb : (x != c) = true := by simpa using hx
        simp only [if_neg hx, h, List.takeWhile_cons, hxb, if_true, List.head?]
        exact congrArg some (congrArg (x :: ·) (Option.some.inj ih))

theorem parseBuilderSpec_no_colon {s : String} (h : ':' ∉ s.data) :
    parseBuilderSpec s = (s, none) := by
  unfold parseBuilderSpec
  rw [splitOnChar_of_not_mem h]

theorem parseBuilderSpec_split (p r : String) (hp : ':' ∉ p.data) :
    parseBuilderSpec (p ++ ":" ++ r) =
      (p, some (String.mk (r.data.takeWhile (fun c => c != ':')))) := by
  unfold parseBuilderSpec
  have hdata : (p ++ ":" ++ r).data = p.data ++ ':' :: r.data := by
    rw [String.data_append, String.data_append,
      show (":" : String).data = [':'] from by decide, List.append_assoc,
      List.singleton_append]
  rw [hdata, splitOnChar_append ':' p.data r.data hp]
  cases h : splitOnChar ':' r.data with
  | nil => exact absurd h (splitOnChar_ne_nil ':' r.data)
  | cons y ys =>
    have ih := head_splitOnChar ':' r.data
    rw [h] at ih
    simp only [List.head?, Option.some.injEq] at ih
    rw [ih]

/-! ## C5 and C6 -/

/-- C5 (as stated, refuted): on `"p:b:c"` the split keeps only the text up to
the second `':'`: the name segment is `"b"`, not the full remainder `"b:c"`,
and resolution against a manifest declaring the entry `"b:c"` accordingly
fails to find it. -/
theorem claim_C5_counterexample :
    parseBuilderSpec "p:b:c" = ("p", some "b") ∧
      (("p", some "b") : String × Option String) ≠ ("p", some "b:c") ∧
      resolveBuilder env5 1 "p:b:c" = .err (.unknownBuilder "Can't find \"b\" in \"p\"") := by
  refine ⟨by decide, by decide, rfl⟩

/-- C5 (amended): `resolveBuilder` splits the specifier at the `':'`
separators, taking the package from before the first `':'` and the builder
name from strictly between the first and second `':'` (the second `':'` and
everything after it are discarded by the `split(':', 2)` limit). -/
theorem claim_C5 (env : HostEnv) (fuel : Nat) (p r : String) (hp : ':' ∉ p.data) :
    resolveBuilder env fuel (p ++ ":" ++ r) =
      resolveBuilderParsed env fuel (p ++ ":" ++ r) p
        (String.mk (r.data.takeWhile (fun c => c != ':'))) := by
  unfold resolveBuilder
  rw [parseBuilderSpec_split p r hp]

/-- C5 witness: the amended split theorem applied to the concrete specifier. -/
theorem claim_C5_witness :
    resolveBuilder envHappy 1 ("a" ++ ":" ++ "b:c") =
      resolveBuilderParsed envHappy 1 ("a" ++ ":" ++ "b:c") "a" "b" := by
  have h := claim_C5 envHappy 1 "a" "b:c" (by decide)
  rw [show String.mk ("b:c".data.takeWhile (fun c => c != ':')) = "b" from by decide] at h
  exact h

/-- C6: a specifier without `':'` is rejected with
`InvalidBuilderSpecifiedError` under every environment and fuel, so no
package resolution, manifest loading or module resolution can take place. -/
theorem claim_C6 (env : HostEnv) (fuel : Nat) (s : String) (h : ':' ∉ s.data) :
    resolveBuilder env fuel s = .err (.invalidBuilderSpecified invalidSpecMsg) := by
  unfold resolveBuilder
  rw [parseBuilderSpec_no_colon h]

/-- C6 witness: C6 applied to a concrete separator-less specifier. -/
theorem claim_C6_witness :
    resolveBuilder envHappy 1 "nocolon" = .err (.invalidBuilderSpecified invalidSpecMsg) :=
  claim_C6 envHappy 1 "nocolon" (by decide)

/-! ## Helper lemmas: paths -/

theorem dropWhile_head_false {α : Type} (p : α → Bool) :
    ∀ (l : List α) (x : α) (xs : List α), l.dropWhile p = x :: xs → p x = false
  | [], x, xs, h => by simp [List.dropWhile] at h
  | a :: l, x, xs, h => by
    rw [List.dropWhile_cons] at h
    by_cases ha : p a = true
    · rw [if_pos ha] at h
      exact dropWhile_head_false p l x xs h
    · rw [if_neg ha] at h
      cases h
      simpa using ha

theorem lastSplitSlash_eq {l d b : List Char} (h : lastSplitSlash l = some (d, b)) :
    l = d ++ '/' :: b := by
  unfold lastSplitSlash at h
  rw [List.span_eq_take_drop] at h
  cases hdr : l.reverse.dropWhile (fun c => c != '/') with
  | nil => rw [hdr] at h; simp at h
  | cons x revDir =>
    rw [hdr] at h
    simp only [Option.some.injEq, Prod.mk.injEq] at h
    obtain ⟨hd, hb⟩ := h
    have hx : ((fun c => c != '/') x) = false := dropWhile_head_false _ l.reverse x revDir hdr
    have hx' : x = '/' := by simpa using hx
    have hsplit : l.reverse.takeWhile (fun c => c != '/') ++ x :: revDir = l.reverse := by
      rw [← hdr, List.takeWhile_append_dropWhile]
    have hrev : l = (l.reverse.takeWhile (fun c => c != '/') ++ x :: revDir).reverse := by
      rw [hsplit, List.reverse_reverse]
    rw [hrev, List.reverse_append, List.reverse_cons]
    subst hd hb hx'
    simp

theorem goodPath_join {p : String} (h : goodPath p = true) :
    pathJoin (dirname p) (basename p) = p := by
  unfold goodPath at h
  cases hs : lastSplitSlash p.data with
  | none => rw [hs] at h; simp at h
  | some db =>
    obtain ⟨d, b⟩ := db
    rw [hs] at h
    simp only [Bool.and_eq_true, Bool.not_eq_true', Bool.or_eq_true, Bool.not_eq_eq_eq_not,
      Bool.not_true, decide_eq_false_iff_not] at h
    obtain ⟨hb, hd⟩ := h
    have hdecomp : p.data = d ++ '/' :: b := lastSplitSlash_eq hs
    have hbase : basename p = String.mk b := by unfold basename; rw [hs]
    cases d with
    | nil =>
      have hdir : dirname p = "/" := by unfold dirname; rw [hs]
      rw [hdir, hbase]
      unfold pathJoin
      simp only [show ("/" : String).data = ['/'] from rfl, List.isEmpty_cons, if_false,
        List.getLast?_singleton, if_true, Bool.false_eq_true]
      rw [show (['/'] ++ b : List Char) = p.data by rw [hdecomp]; rfl]
    | cons e es =>
      have hdir : dirname p = String.mk (e :: es) := by unfold dirname; rw [hs]
      rw [hdir, hbase]
      unfold pathJoin
      have hlast : ¬ ((e :: es).getLast? = some '/') := by
        rcases hd with hd | hd
        · simp [List.isEmpty_cons] at hd
        · exact hd
      simp only [show (String.mk (e :: es)).data = e :: es from rfl, List.isEmpty_cons,
        Bool.false_eq_true, if_false, if_neg hlast]
      rw [show (e :: es ++ '/' :: b : List Char) = p.data by rw [hdecomp]]

theorem splitImplementation_no_hash {s : String} (h : '#' ∉ s.data) :
    splitImplementation s = (s, none) := by
  unfold splitImplementation
  rw [List.span_eq_take_drop]
  have hdrop : s.data.dropWhile (fun c => c != '#') = [] := by
    rw [List.dropWhile_eq_nil_iff]
    intro x hx
    simp only [bne_iff_ne, ne_eq]
    exact fun e => h (e ▸ hx)
  rw [hdrop]

/-! ## Helper lemmas: manifest loader -/

theorem followBuilders_not_unknown (env : HostEnv) :
    ∀ (fuel : Nat) (path : String) (doc : JsValue) (m : String),
      followBuilders env fuel path doc ≠ .err (.unknownBuilder m)
  | 0, path, doc, m => by simp [followBuilders]
  | fuel + 1, path, doc, m => by
    unfold followBuilders
    cases h : jsGetProp doc "builders" with
    | none => simp
    | some v =>
      cases v with
      | str next =>
        cases hr : env.readJson (pathJoin (dirname path) next) with
        | none => simp [hr]
        | some nextJson =>
          simpa [hr] using followBuilders_not_unknown env fuel (pathJoin (dirname path) next) nextJson m
      | null => simp
      | undefined => simp
      | bool b => simp
      | num n => simp
      | arr a => simp
      | obj fs t => simp
      | func i t => simp

theorem loadManifestAt_not_unknown (env : HostEnv) (fuel : Nat)
    (packageName builderSpec startJsonPath : String) (m : String) :
    loadManifestAt env fuel packageName builderSpec startJsonPath ≠ .err (.unknownBuilder m) := by
  intro hcontra
  unfold loadManifestAt at hcontra
  cases hr : env.readJson startJsonPath with
  | none => simp only [hr] at hcontra; simp at hcontra
  | some startJson =>
    simp only [hr] at hcontra
    cases hf : followBuilders env fuel startJsonPath startJson with
    | ok pd =>
      obtain ⟨bp, bj⟩ := pd
      simp only [hf] at hcontra
      cases hg : jsGetProp bj "builders" with
      | none => simp only [hg] at hcontra; simp at hcontra
      | some bf =>
        simp only [hg] at hcontra
        by_cases hn : jsIsNullish bf = true
        · rw [if_pos hn] at hcontra
          simp at hcontra
        · rw [if_neg hn] at hcontra
          cases bf <;> simp_all
    | err e =>
      simp only [hf, Outcome.err.injEq] at hcontra
      exact followBuilders_not_unknown env fuel startJsonPath startJson m (by rw [hf, hcontra])
    | diverge => simp only [hf] at hcontra; simp at hcontra
    | crash => simp only [hf] at hcontra; simp at hcontra

theorem loadBuilderJsonAux_unknown (env : HostEnv) (fuel : Nat) (packageName builderSpec : String) :
    ∀ (bases : List String) (m : String),
      loadBuilderJsonAux env fuel packageName builderSpec bases = .err (.unknownBuilder m) →
      ∀ b ∈ bases, resolveStart env b packageName = none
  | [], m, _, b, hb => by simp at hb
  | base :: rest, m, h, b, hb => by
    unfold loadBuilderJsonAux at h
    cases hr : resolveStart env base packageName with
    | some p =>
      simp only [hr] at h
      exact absurd h (loadManifestAt_not_unknown env fuel packageName builderSpec p m)
    | none =>
      simp only [hr] at h
      rcases List.mem_cons.mp hb with rfl | hb'
      · exact hr
      · exact loadBuilderJsonAux_unknown env fuel packageName builderSpec rest m h b hb'

theorem loadBuilderJsonAux_firstStart (env : HostEnv) (fuel : Nat) (packageName builderSpec : String) :
    ∀ (bases : List String) (p : String), firstStartAux env packageName bases = some p →
      loadBuilderJsonAux env fuel packageName builderSpec bases = loadManifestAt env fuel packageName builderSpec p
  | [], p, h => by simp [firstStartAux] at h
  | base :: rest, p, h => by
    unfold firstStartAux at h
    unfold loadBuilderJsonAux
    cases hr : resolveStart env base packageName with
    | some q =>
      simp only [hr, Option.some.injEq] at h
      simp only [hr, h]
    | none =>
      simp only [hr] at h
      simp only [hr]
      exact loadBuilderJsonAux_firstStart env fuel packageName builderSpec rest p h

/-! ## C8 -/

/-- C8: when the manifest chain loads successfully (from the first candidate
base directory that resolves the package) but the final document's `builders`
field is nullish or not an object, `loadBuilderJson` fails with
`InvalidBuilderError`; and whenever it fails with `UnknownBuilderError`, no
candidate base directory resolved the package at all. -/
theorem claim_C8 (env : HostEnv) (fuel : Nat) (packageName builderSpec : String) :
    (∀ m, loadBuilderJson env fuel packageName builderSpec = .err (.unknownBuilder m) →
      ∀ b ∈ basePaths env, resolveStart env b packageName = none) ∧
    (∀ (startJsonPath : String) (startJson : JsValue) (finalPath : String) (finalJson : JsValue)
        (buildersField : JsValue),
      firstStart env packageName = some startJsonPath →
      env.readJson startJsonPath = some startJson →
      followBuilders env fuel startJsonPath startJson = .ok (finalPath, finalJson) →
      jsGetProp finalJson "builders" = some buildersField →
      (jsIsNullish buildersField = true ∨ isJsonObject buildersField = false) →
      ∃ m, loadBuilderJson env fuel packageName builderSpec = .err (.invalidBuilder m)) := by
  constructor
  · intro m h
    exact loadBuilderJsonAux_unknown env fuel packageName builderSpec (basePaths env) m h
  · intro startJsonPath startJson finalPath finalJson buildersField hfirst hread hfollow hget hbad
    have heq : loadBuilderJson env fuel packageName builderSpec =
        loadManifestAt env fuel packageName builderSpec startJsonPath :=
      loadBuilderJsonAux_firstStart env fuel packageName builderSpec (basePaths env) startJsonPath hfirst
    rw [heq]
    unfold loadManifestAt
    simp only [hread, hfollow, hget]
    by_cases hn : jsIsNullish buildersField = true
    · rw [if_pos hn]
      exact ⟨_, rfl⟩
    · rw [if_neg hn]
      rcases hbad with hbad | hbad
      · exact absurd hbad hn
      · cases buildersField with
        | obj fs t => simp [isJsonObject] at hbad
        | null => exact ⟨_, rfl⟩
        | undefined => exact ⟨_, rfl⟩
        | bool b => exact ⟨_, rfl⟩
        | num n => exact ⟨_, rfl⟩
        | str s => exact ⟨_, rfl⟩
        | arr a => exact ⟨_, rfl⟩
        | func i t => exact ⟨_, rfl⟩

/-- C8 witness: C8 applied to two concrete environments. -/
theorem claim_C8_witness :
    (∃ m, loadBuilderJson envBadBuilders 1 "pkg" "pkg:x" = .err (.invalidBuilder m)) ∧
      (∀ b ∈ basePaths envNone, resolveStart envNone b "pkg" = none) := by
  constructor
  · exact (claim_C8 envBadBuilders 1 "pkg" "pkg:x").2 "/ws/node_modules/pkg/package.json"
      (.obj [("name", .str "pkg")] false) "/ws/node_modules/pkg/package.json"
      (.obj [("name", .str "pkg")] false) .undefined rfl rfl rfl rfl (Or.inl rfl)
  · exact (claim_C8 envNone 1 "pkg" "pkg:x").1 _ rfl

/-- Reduction of `resolveBuilder` past a successful parse. -/
theorem resolveBuilder_parsed (env : HostEnv) (fuel : Nat) {s pkg name : String}
    (h : parseBuilderSpec s = (pkg, some name)) :
    resolveBuilder env fuel s = resolveBuilderParsed env fuel s pkg name := by
  unfold resolveBuilder
  rw [h]

/-! ## C1 -/

/-- C1: when the loaded manifest has the entry name in the alternate
(`executors`) map, `resolveBuilder` continues with exactly that entry and
`isNx = true`; the whole result is independent of the native (`builders`)
map, whose entry of the same name is never consulted. -/
theorem claim_C1 (env : HostEnv) (fuel : Nat)
    (builderSpec packageName builderName builderPath : String)
    (builders executors : List (String × JsValue)) (entry : JsValue)
    (hparse : parseBuilderSpec builderSpec = (packageName, some builderName))
    (hdirect : packageName ≠ "$direct")
    (hload : loadBuilderJson env fuel packageName builderSpec = .ok (builderPath, builders, some executors))
    (hentry : jsLookup executors builderName = some entry) :
    resolveBuilder env fuel builderSpec =
      buildDescriptor env packageName builderName builderPath entry (some true) := by
  rw [resolveBuilder_parsed env fuel hparse]
  unfold resolveBuilderParsed
  rw [if_neg hdirect]
  simp only [hload, hentry]

/-- C1 witness: C1 applied to the fixture manifest declaring the entry in both maps. -/
theorem claim_C1_witness :
    resolveBuilder envHappy 2 "pkg:b" =
      buildDescriptor envHappy "pkg" "b" "/ws/node_modules/pkg/builders.json"
        (.obj [("implementation", .str "exec.js"), ("schema", .bool true)] false) (some true) :=
  claim_C1 envHappy 2 "pkg:b" "pkg" "b" "/ws/node_modules/pkg/builders.json"
    [("b", .obj [("implementation", .str "impl.js"), ("schema", .bool true)] false)]
    [("b", .obj [("implementation", .str "exec.js"), ("schema", .bool true)] false)]
    (.obj [("implementation", .str "exec.js"), ("schema", .bool true)] false)
    (by decide) (by decide) rfl rfl

theorem resolveBuilderFromPathAux_firstModule (env : HostEnv) (path : String) :
    ∀ (bases : List String) (p : String), firstModuleAux env path bases = some p →
      resolveBuilderFromPathAux env path bases = directLoadAt env path p
  | [], p, h => by simp [firstModuleAux] at h
  | base :: rest, p, h => by
    unfold firstModuleAux at h
    unfold resolveBuilderFromPathAux
    cases hr : env.resolveModule base path with
    | some q =>
      simp only [hr, Option.some.injEq] at h
      simp only [hr, h]
    | none =>
      simp only [hr] at h
      simp only [hr]
      exact resolveBuilderFromPathAux_firstModule env path rest p h

/-! ## C7 -/

/-- Reduction of `resolveBuilderFromPath` to the first resolving candidate. -/
theorem resolveBuilderFromPath_firstModule (env : HostEnv) (path resolvedPath : String)
    (h : firstModule env path = some resolvedPath) :
    resolveBuilderFromPath env path = directLoadAt env path resolvedPath := by
  unfold resolveBuilderFromPath
  exact resolveBuilderFromPathAux_firstModule env path (basePaths env) resolvedPath h

/-- Evaluation of `buildDescriptor` on the entry synthesized for a
builder-tagged direct module. -/
theorem buildDescriptor_direct_builder (env : HostEnv) (pkg name bp y : String) :
    buildDescriptor env pkg name bp
        (.obj [("schema", .bool true), ("implementation", .str y)] false) none =
      .ok { packageName := some pkg, builderName := name, description := none,
            optionSchema := .bool true,
            implementationPath := pathJoin (dirname bp) (splitImplementation y).1,
            implementationExport := (splitImplementation y).2, isNx := none } := rfl

/-- C7: a `$direct` specifier whose module path resolves and whose loaded
value (`module.default ?? module`) is builder-tagged produces a descriptor
with `optionSchema = true`, `implementationPath` the resolved module path,
`implementationExport = null` and `isNx = null`. -/
theorem claim_C7 (env : HostEnv) (fuel : Nat) (builderSpec path resolvedPath : String)
    (m : JsValue) (fields : List (String × JsValue))
    (hparse : parseBuilderSpec builderSpec = ("$direct", some path))
    (hres : firstModule env path = some resolvedPath)
    (himp : env.importModule resolvedPath = some m)
    (hdef : defaultExport m = .obj fields true)
    (hgood : goodPath resolvedPath = true)
    (hnohash : '#' ∉ (basename resolvedPath).data) :
    resolveBuilder env fuel builderSpec =
      .ok { packageName := some "$direct", builderName := path, description := none,
            optionSchema := .bool true, implementationPath := resolvedPath,
            implementationExport := none, isNx := none } := by
  have h1 : directLoadAt env path resolvedPath =
      .ok (resolvedPath,
        .obj [("schema", .bool true), ("implementation", .str (basename resolvedPath))] false) := by
    unfold directLoadAt
    simp only [himp, hdef]
    rw [if_pos trivial]
  rw [resolveBuilder_parsed env fuel hparse]
  unfold resolveBuilderParsed
  rw [if_pos rfl]
  rw [resolveBuilderFromPath_firstModule env path resolvedPath hres]
  simp only [h1]
  rw [buildDescriptor_direct_builder env "$direct" path resolvedPath (basename resolvedPath)]
  rw [splitImplementation_no_hash hnohash]
  simp only [goodPath_join hgood]

/-- C7 witness: C7 applied to the fixture direct module. -/
theorem claim_C7_witness :
    resolveBuilder envHappy 1 "$direct:./direct.js" =
      .ok { packageName := some "$direct", builderName := "./direct.js", description := none,
            optionSchema := .bool true, implementationPath := "/ws/direct.js",
            implementationExport := none, isNx := none } :=
  claim_C7 envHappy 1 "$direct:./direct.js" "./direct.js" "/ws/direct.js"
    (.obj [("default", vTagged)] false) [] (by decide) rfl rfl rfl (by decide) (by decide)

/-! ## C10 -/

theorem buildDescriptor_ok_packageName (env : HostEnv)
    (packageName builderName builderPath : String) (builderInfo : JsValue)
    (isNx : Option Bool) (d : SnuggeryBuilderInfo)
    (h : buildDescriptor env packageName builderName builderPath builderInfo isNx = .ok d) :
    d.packageName = some packageName := by
  unfold buildDescriptor at h
  cases builderInfo with
  | obj fields tag =>
    cases hi : jsLookup fields "implementation" with
    | none => simp only [hi] at h; cases h
    | some iv =>
      cases hs : jsLookup fields "schema" with
      | none =>
        simp only [hi, hs] at h
        cases iv <;> simp_all
      | some sv =>
        simp only [hi, hs] at h
        cases iv with
        | str implementationRaw =>
          cases sv with
          | bool b =>
            simp only [Outcome.ok.injEq] at h
            rw [← h]
            rfl
          | str schemaRel =>
            cases hj : env.readJson (pathJoin (dirname builderPath) schemaRel) with
            | none => simp only [hj] at h; cases h
            | some os =>
              simp only [hj] at h
              cases os with
              | obj osf ost =>
                simp only [Outcome.ok.injEq] at h
                rw [← h]
                rfl
              | null => simp only [] at h; cases h
              | undefined => simp only [] at h; cases h
              | bool b => simp only [] at h; cases h
              | num n => simp only [] at h; cases h
              | str s => simp only [] at h; cases h
              | arr a => simp only [] at h; cases h
              | func i t => simp only [] at h; cases h
          | null => cases h
          | undefined => cases h
          | num n => cases h
          | arr a => cases h
          | obj f t => cases h
          | func i t => cases h
        | null => cases h
        | undefined => cases h
        | bool b => cases h
        | num n => cases h
        | arr a => cases h
        | obj f t => cases h
        | func i t => cases h
  | null => cases h
  | undefined => cases h
  | bool b => cases h
  | num n => cases h
  | str s => cases h
  | arr a => cases h
  | func i t => cases h

theorem resolveBuilderParsed_ok_packageName (env : HostEnv) (fuel : Nat)
    (builderSpec packageName builderName : String) (d : SnuggeryBuilderInfo)
    (h : resolveBuilderParsed env fuel builderSpec packageName builderName = .ok d) :
    d.packageName = some packageName := by
  unfold resolveBuilderParsed at h
  by_cases hd : packageName = "$direct"
  · rw [if_pos hd] at h
    cases hr : resolveBuilderFromPath env builderName with
    | ok pb =>
      obtain ⟨builderPath, builderInfo⟩ := pb
      rw [hr] at h
      exact buildDescriptor_ok_packageName env packageName builderName builderPath builderInfo none d h
    | err e => rw [hr] at h; cases h
    | diverge => rw [hr] at h; cases h
    | crash => rw [hr] at h; cases h
  · rw [if_neg hd] at h
    cases hl : loadBuilderJson env fuel packageName builderSpec with
    | ok t =>
      obtain ⟨builderPath, builderJson, executorsJson⟩ := t
      rw [hl] at h
      cases executorsJson with
      | some executors =>
        cases he : jsLookup executors builderName with
        | some builderInfo =>
          simp only [he] at h
          exact buildDescriptor_ok_packageName env packageName builderName builderPath builderInfo (some true) d h
        | none =>
          simp only [he] at h
          cases hb : jsLookup builderJson builderName with
          | some builderInfo =>
            simp only [hb] at h
            exact buildDescriptor_ok_packageName env packageName builderName builderPath builderInfo (some false) d h
          | none => simp only [hb] at h; cases h
      | none =>
        cases hb : jsLookup builderJson builderName with
        | some builderInfo =>
          simp only [hb] at h
          exact buildDescriptor_ok_packageName env packageName builderName builderPath builderInfo none d h
        | none => simp only [hb] at h; cases h
    | err e => rw [hl] at h; cases h
    | diverge => rw [hl] at h; cases h
    | crash => rw [hl] at h; cases h

/-- C10: every successful `resolveBuilder` yields a non-null `packageName`,
and for a `$direct` specifier it is the literal string `"$direct"`. -/
theorem claim_C10 (env : HostEnv) (fuel : Nat) (builderSpec : String) (d : SnuggeryBuilderInfo)
    (h : resolveBuilder env fuel builderSpec = .ok d) :
    d.packageName ≠ none ∧
      ((parseBuilderSpec builderSpec).1 = "$direct" → d.packageName = some "$direct") := by
  have hpkg : d.packageName = some (parseBuilderSpec builderSpec).1 := by
    unfold resolveBuilder at h
    cases hp : parseBuilderSpec builderSpec with
    | mk pkg nameOpt =>
      rw [hp] at h
      cases nameOpt with
      | none => cases h
      | some name => exact resolveBuilderParsed_ok_packageName env fuel builderSpec pkg name d h
  constructor
  · rw [hpkg]
    simp
  · intro hd
    rw [hpkg, hd]

/-- C10 witness: C10 applied to a concrete successful resolution. -/
theorem claim_C10_witness :
    ({ packageName := some "$direct", builderName := "./direct.js", description := none,
       optionSchema := .bool true, implementationPath := "/ws/direct.js",
       implementationExport := none, isNx := none } : SnuggeryBuilderInfo).packageName ≠ none ∧
      ((parseBuilderSpec "$direct:./direct.js").1 = "$direct" →
        ({ packageName := some "$direct", builderName := "./direct.js", description := none,
           optionSchema := .bool true, implementationPath := "/ws/direct.js",
           implementationExport := none, isNx := none } : SnuggeryBuilderInfo).packageName = some "$direct") :=
  claim_C10 envHappy 1 "$direct:./direct.js" _ rfl

/-! ## Helper lemmas: loadBuilder -/

theorem schemaCliNx_typeofObject {v : JsValue} (h : schemaCliNx v = true) :
    typeofObject v = true := by
  cases v <;> simp_all [schemaCliNx, typeofObject]

theorem schemaCliNx_eq_isStrNx {v cli : JsValue} (h : jsGetProp v "cli" = some cli) :
    schemaCliNx v = isStrNx cli := by
  cases v with
  | null => simp [jsGetProp] at h
  | undefined => simp [jsGetProp] at h
  | obj fields t =>
    simp only [jsGetProp, Option.some.injEq] at h
    cases hl : jsLookup fields "cli" with
    | none => simp only [hl, Option.getD] at h; rw [← h]; simp [schemaCliNx, hl, isStrNx]
    | some w =>
      simp only [hl, Option.getD] at h
      rw [← h]
      cases w <;> simp [schemaCliNx, hl, isStrNx]
  | bool b => simp only [jsGetProp, Option.some.injEq] at h; rw [← h]; simp [schemaCliNx, isStrNx]
  | num n => simp only [jsGetProp, Option.some.injEq] at h; rw [← h]; simp [schemaCliNx, isStrNx]
  | str s => simp only [jsGetProp, Option.some.injEq] at h; rw [← h]; simp [schemaCliNx, isStrNx]
  | arr a => simp only [jsGetProp, Option.some.injEq] at h; rw [← h]; simp [schemaCliNx, isStrNx]
  | func i t => simp only [jsGetProp, Option.some.injEq] at h; rw [← h]; simp [schemaCliNx, isStrNx]

theorem jsBuilderTag_not_nullish {v : JsValue} (h : jsBuilderTag v = true) :
    jsIsNullish v = false := by
  cases v <;> simp_all [jsBuilderTag, jsIsNullish]

theorem loadBuilderWith_adapted (info : SnuggeryBuilderInfo) (implementation : JsValue)
    (r : LoadedBuilder) (h : loadBuilderWith info implementation = .ok r) :
    LoadedBuilder.isAdapted r = true ↔
      (info.isNx = some true ∨
        (info.isNx ≠ some false ∧ schemaCliNx info.optionSchema = true)) := by
  unfold loadBuilderWith at h
  by_cases hnull : jsIsNullish implementation = true
  · rw [if_pos hnull] at h
    cases h
  · rw [if_neg hnull] at h
    by_cases htrue : info.isNx = some true
    · rw [if_pos htrue] at h
      cases h
      simp [LoadedBuilder.isAdapted, htrue]
    · rw [if_neg htrue] at h
      by_cases hcond : info.isNx ≠ some false ∧ typeofObject info.optionSchema = true
      · rw [if_pos hcond] at h
        cases hcli : jsGetProp info.optionSchema "cli" with
        | none => simp only [hcli] at h; cases h
        | some cli =>
          simp only [hcli] at h
          have hcnx : schemaCliNx info.optionSchema = isStrNx cli := schemaCliNx_eq_isStrNx hcli
          by_cases hnx : isStrNx cli = true
          · rw [if_pos hnx] at h
            cases h
            simp only [LoadedBuilder.isAdapted, true_iff]
            exact Or.inr ⟨hcond.1, by rw [hcnx, hnx]⟩
          · rw [if_neg hnx] at h
            by_cases htag : jsBuilderTag implementation = true
            · rw [if_pos htag] at h
              cases h
              simp only [LoadedBuilder.isAdapted, Bool.false_eq_true, false_iff]
              intro hbad
              rcases hbad with hbad | ⟨_, hbad⟩
              · exact htrue hbad
              · rw [hcnx] at hbad
                exact hnx hbad
            · rw [if_neg htag] at h
              cases h
      · rw [if_neg hcond] at h
        by_cases htag : jsBuilderTag implementation = true
        · rw [if_pos htag] at h
          cases h
          simp only [LoadedBuilder.isAdapted, Bool.false_eq_true, false_iff]
          intro hbad
          rcases hbad with hbad | ⟨hne, hcli⟩
          · exact htrue hbad
          · exact hcond ⟨hne, schemaCliNx_typeofObject hcli⟩
        · rw [if_neg htag] at h
          cases h

/-! ## C3 -/

/-- C3: a successful `loadBuilder` routes the implementation through the
alternate-convention adapter exactly when `isNx` is `true`, or when `isNx` is
not `false` and the option schema is an object carrying `cli = "nx"`; with
`isNx = false` the adapter is never used. -/
theorem claim_C3 (env : HostEnv) (info : SnuggeryBuilderInfo) (r : LoadedBuilder)
    (h : loadBuilder env info = .ok r) :
    LoadedBuilder.isAdapted r = true ↔
      (info.isNx = some true ∨
        (info.isNx ≠ some false ∧ schemaCliNx info.optionSchema = true)) := by
  unfold loadBuilder at h
  cases him : env.importModule info.implementationPath with
  | none => simp only [him] at h; cases h
  | some m =>
    simp only [him] at h
    exact loadBuilderWith_adapted info _ r h

/-- C3 witness: C3 applied to a concrete adapted load. -/
theorem claim_C3_witness :
    LoadedBuilder.isAdapted (.adapted vTagged) = true ↔
      (infoNxTrue.isNx = some true ∨
        (infoNxTrue.isNx ≠ some false ∧ schemaCliNx infoNxTrue.optionSchema = true)) :=
  claim_C3 envLoad infoNxTrue (.adapted vTagged) rfl

/-! ## C2 -/

/-- C2 (as stated, refuted): with `isNx = null` and a schema carrying
`cli: "nx"`, a builder-tagged default export is *not* returned unchanged; it
is wrapped through the adapter. -/
theorem claim_C2_counterexample :
    loadBuilder envLoad infoCliNx = .ok (.adapted vTagged) ∧
      loadBuilder envLoad infoCliNx ≠ .ok (.native vTagged) := by
  constructor
  · rfl
  · simp only [show loadBuilder envLoad infoCliNx = .ok (.adapted vTagged) from rfl]
    simp [vTagged]

/-- C2 (amended): a builder-tagged default export is returned unchanged when
`isNx` is `false`, or when `isNx` is `null` and the option schema is neither
the JSON `null` value nor an object carrying the `cli = "nx"` marker. -/
theorem claim_C2 (env : HostEnv) (info : SnuggeryBuilderInfo) (m v : JsValue)
    (himp : env.importModule info.implementationPath = some m)
    (hexp : info.implementationExport = none)
    (hdef : defaultExport m = v)
    (htag : jsBuilderTag v = true)
    (hnx : info.isNx = some false ∨
      (info.isNx = none ∧ info.optionSchema ≠ .null ∧ schemaCliNx info.optionSchema = false)) :
    loadBuilder env info = .ok (.native v) := by
  unfold loadBuilder
  simp only [himp, hexp]
  rw [hdef]
  unfold loadBuilderWith
  rw [if_neg (by rw [jsBuilderTag_not_nullish htag]; exact Bool.false_ne_true)]
  rcases hnx with hnx | ⟨hnx, hnn, hcli⟩
  · rw [if_neg (by simp [hnx]), if_neg (by simp [hnx]), if_pos htag]
  · rw [if_neg (by simp [hnx])]
    by_cases hobj : typeofObject info.optionSchema = true
    · rw [if_pos ⟨by simp [hnx], hobj⟩]
      cases hcliprop : jsGetProp info.optionSchema "cli" with
      | none =>
        exfalso
        cases hsch : info.optionSchema <;>
          simp_all [jsGetProp, typeofObject]
      | some cli =>
        simp only [hcliprop]
        have heq : schemaCliNx info.optionSchema = isStrNx cli := schemaCliNx_eq_isStrNx hcliprop
        rw [hcli] at heq
        rw [if_neg (by rw [← heq]; exact Bool.false_ne_true), if_pos htag]
    · rw [if_neg (fun hc => hobj hc.2), if_pos htag]

/-- C2 witness: the amended theorem applied to a definitely-native descriptor. -/
theorem claim_C2_witness :
    loadBuilder envLoad infoNativeFalse = .ok (.native vTagged) :=
  claim_C2 envLoad infoNativeFalse (.obj [("default", vTagged)] false) vTagged
    rfl rfl rfl (by decide) (Or.inl rfl)

/-! ## C4 -/

/-- C4: with base `{a:1, b:{x:1}}`, configurations `c1={b:{y:1}}`,
`c2={a:2}` and configuration list `"c1,c2"`, the merged options are exactly
`{a:2, b:{y:1}}`: configurations are shallow-merged in list order, later keys
overwrite earlier ones, and nested objects are replaced wholesale. -/
theorem claim_C4 (env : HostEnv) (target : Target) (td : TargetDefinition)
    (hget : getTarget env target = .ok td)
    (hopts : td.options = some c4Base)
    (hcfg : td.configurations = some c4Configs)
    (hconf : target.configuration = some "c1,c2") :
    getOptionsForTarget env target =
      .ok (.obj [("a", .num 2), ("b", .obj [("y", .num 1)] false)] false) := by
  unfold getOptionsForTarget
  simp only [hget, hopts, hconf]
  rw [show configNames (some "c1,c2") = ["c1", "c2"] from by decide]
  have step1 : applyConfiguration td target.project target.target
      (.ok (jsAssignFields [] c4Base)) "c1" =
      .ok [("a", .num 1), ("b", .obj [("y", .num 1)] false)] := by
    unfold applyConfiguration
    simp only [lookupConfiguration, hcfg]
    rfl
  have step2 : applyConfiguration td target.project target.target
      (.ok [("a", .num 1), ("b", .obj [("y", .num 1)] false)]) "c2" =
      .ok [("a", .num 2), ("b", .obj [("y", .num 1)] false)] := by
    unfold applyConfiguration
    simp only [lookupConfiguration, hcfg]
    rfl
  simp only [List.foldl, step1, step2]

/-- C4 witness: C4 applied to the fixture workspace. -/
theorem claim_C4_witness :
    getOptionsForTarget envHappy c4Target =
      .ok (.obj [("a", .num 2), ("b", .obj [("y", .num 1)] false)] false) :=
  claim_C4 envHappy c4Target buildTargetDef rfl rfl rfl rfl

/-! ## C9 -/

theorem foldl_applyConfiguration_err (td : TargetDefinition) (projectName targetName : String)
    (e : HostError) : ∀ (names : List String),
    names.foldl (applyConfiguration td projectName targetName) (.err e) = .err e
  | [] => rfl
  | n :: rest => by
    simp only [List.foldl]
    rw [show applyConfiguration td projectName targetName (.err e) n = .err e from rfl]
    exact foldl_applyConfiguration_err td projectName targetName e rest

theorem foldl_applyConfiguration_missing (td : TargetDefinition)
    (projectName targetName badName : String) (post : List String)
    (hbad : hasConfiguration td badName = false) :
    ∀ (pre : List String) (opts : List (String × JsValue)),
      (∀ m ∈ pre, hasConfiguration td m = true) →
      (pre ++ badName :: post).foldl (applyConfiguration td projectName targetName) (.ok opts) =
        .err (.unknownConfiguration (unknownConfigMsg targetName projectName badName))
  | [], opts, _ => by
    simp only [List.nil_append, List.foldl]
    have hstep : applyConfiguration td projectName targetName (.ok opts) badName =
        .err (.unknownConfiguration (unknownConfigMsg targetName projectName badName)) := by
      unfold hasConfiguration at hbad
      unfold applyConfiguration
      cases hl : lookupConfiguration td badName with
      | none => simp only [hl]
      | some v =>
        rw [hl] at hbad
        simp only [hl]
        rw [if_pos (by simpa using hbad)]
    rw [hstep]
    exact foldl_applyConfiguration_err td projectName targetName _ post
  | m :: pre', opts, hpre => by
    simp only [List.cons_append, List.foldl]
    have hm : hasConfiguration td m = true := hpre m (List.mem_cons_self m _)
    unfold hasConfiguration at hm
    cases hl : lookupConfiguration td m with
    | none => rw [hl] at hm; cases hm
    | some v =>
      rw [hl] at hm
      have hstep : applyConfiguration td projectName targetName (.ok opts) m =
          .ok (jsAssign opts v) := by
        unfold applyConfiguration
        simp only [hl]
        rw [if_neg (by simpa using hm)]
      rw [hstep]
      exact foldl_applyConfiguration_missing td projectName targetName badName post hbad pre'
        (jsAssign opts v) (fun x hx => hpre x (List.mem_cons_of_mem _ hx))

/-- C9: when the configuration list names a configuration absent from the
target definition (after any number of present ones), `getOptionsForTarget`
fails with an `UnknownConfigurationError` whose message names that
configuration, the project and the target. -/
theorem claim_C9 (env : HostEnv) (target : Target) (td : TargetDefinition)
    (pre post : List String) (badName : String)
    (hget : getTarget env target = .ok td)
    (hnames : configNames target.configuration = pre ++ badName :: post)
    (hpre : ∀ m ∈ pre, hasConfiguration td m = true)
    (hbad : hasConfiguration td badName = false) :
    getOptionsForTarget env target =
      .err (.unknownConfiguration (unknownConfigMsg target.target target.project badName)) := by
  unfold getOptionsForTarget
  simp only [hget, hnames]
  rw [foldl_applyConfiguration_missing td target.project target.target badName post hbad pre _ hpre]

/-- C9 witness: C9 applied to the fixture workspace and the list `c1,nope`. -/
theorem claim_C9_witness :
    getOptionsForTarget envHappy c9Target =
      .err (.unknownConfiguration (unknownConfigMsg "build" "app" "nope")) :=
  claim_C9 envHappy c9Target buildTargetDef ["c1"] [] "nope" rfl rfl
    (by intro m hm; simp only [List.mem_singleton] at hm; subst hm; rfl) rfl

end Snuggery
